import Mathlib

/-!
# aws-sdk-go-examples: a shallow embedding of the three example programs

The repository holds three independent command programs (`dynamodb/main.go`,
`kinesis/main.go`, `s3/main.go`).  Each operation builds a request, calls the
vendor SDK, branches on the error and prints.  The SDK and the services are
outside the repository: they appear here as scripted or oracle collaborators,
and everything the programs do around them (requests built, text printed, exit
paths taken) is translated from the Go source.
-/

namespace Go

/-! ## The Go library calls the programs use -/

/-- Text written by `fmt.Println` of string operands: the operands separated
by single spaces, then a newline. -/
def Println (operands : List String) : String :=
  " ".intercalate operands ++ "\n"

/-- The decimal digit character of `d < 10`. -/
def digitChar (d : Nat) : Char := Char.ofNat (48 + d % 10)

/-- Decimal digits of a natural number, most significant first (`fuel` bounds
the number of digits). -/
def natDigits : Nat → Nat → List Char → List Char
  | 0, _, acc => acc
  | fuel + 1, n, acc =>
    if n < 10 then digitChar n :: acc else natDigits fuel (n / 10) (digitChar n :: acc)

/-- Decimal text of a natural number, as `strconv` writes it. -/
def formatNat (n : Nat) : String := String.mk (natDigits (n + 1) n [])

/-- The Go call `strconv.FormatInt(i, 10)`. -/
def FormatInt : Int → String
  | .ofNat n => formatNat n
  | .negSucc n => "-" ++ formatNat (n + 1)

/-- Value of a run of decimal digit characters; `none` if a character is not a
digit. -/
def digitsValue : List Char → Nat → Option Nat
  | [], acc => some acc
  | c :: cs, acc =>
    if '0' ≤ c ∧ c ≤ '9' then digitsValue cs (acc * 10 + (c.toNat - 48)) else none

/-- Unsigned decimal integer text to its value; empty text is rejected. -/
def parseNat (cs : List Char) : Option Nat :=
  if cs = [] then none else digitsValue cs 0

/-- Value of decimal integer text with an optional sign, whatever its size;
`none` if the text is not of that form. -/
def parseSigned (s : String) : Option Int :=
  match s.toList with
  | '-' :: cs => (parseNat cs).map (fun n => - (n : Int))
  | '+' :: cs => (parseNat cs).map (fun n => (n : Int))
  | cs => (parseNat cs).map (fun n => (n : Int))

/-- The Go call `strconv.ParseInt(s, 10, 64)` on plain decimal text with an
optional sign, range check included. -/
def ParseInt (s : String) : Option Int :=
  (parseSigned s).bind
    (fun i => if - (2 : Int) ^ 63 ≤ i ∧ i < (2 : Int) ^ 63 then some i else none)

/-- A hexadecimal digit, lower case. -/
def hexDigit (n : Nat) : Char :=
  if n % 16 < 10 then Char.ofNat (48 + n % 16) else Char.ofNat (87 + n % 16)

/-- The Go call `strconv.Quote` on one character.  The double quote and the
backslash are escaped; the control characters 7 to 13 have their letter
escapes; the other characters below the space, DEL and the unprintable
characters of Latin-1 (0x80 to 0xA0, and the soft hyphen 0xAD) are written in
hexadecimal; every other character is copied.  Beyond Latin-1 this takes the
character as printable, as letters, digits, punctuation and symbols are. -/
def quoteChar (c : Char) : List Char :=
  if c = '"' then ['\\', '"']
  else if c = '\\' then ['\\', '\\']
  else if c.toNat = 7 then ['\\', 'a']
  else if c.toNat = 8 then ['\\', 'b']
  else if c.toNat = 12 then ['\\', 'f']
  else if c = '\n' then ['\\', 'n']
  else if c = '\r' then ['\\', 'r']
  else if c = '\t' then ['\\', 't']
  else if c.toNat = 11 then ['\\', 'v']
  else if c.toNat < 32 ∨ c.toNat = 127 then
    ['\\', 'x', hexDigit (c.toNat / 16), hexDigit c.toNat]
  else if (128 ≤ c.toNat ∧ c.toNat ≤ 160) ∨ c.toNat = 173 then
    ['\\', 'u', '0', '0', hexDigit (c.toNat / 16), hexDigit c.toNat]
  else [c]

/-- The Go call `strconv.Quote(s)`, also the rendering of `%q`. -/
def Quote (s : String) : String :=
  String.mk ('"' :: (s.toList.flatMap quoteChar ++ ['"']))

/-- The text of the error `strconv.ParseInt(s, 10, 64)` returns. -/
def ParseIntError (s : String) : String :=
  "strconv.ParseInt: parsing " ++ Quote s ++
    (if (parseSigned s).isSome then ": value out of range" else ": invalid syntax")

/-- The Go conversion `[]byte(s)`: the UTF-8 bytes of the string. -/
def bytes (s : String) : List Nat :=
  (s.toList.flatMap String.utf8EncodeChar).map UInt8.toNat

end Go

namespace DynamoDB

open Go

/-! ## `listTables` (dynamodb/main.go, lines 112-147) -/

/-- Request of `svc.ListTables`: only `ExclusiveStartTableName` is ever set by
the program; a nil pointer is `none`. -/
structure ListTablesInput where
  ExclusiveStartTableName : Option String
  deriving DecidableEq, Repr

/-- Successful answer of `svc.ListTables`.  `TableNames` are the names the
service lists (the program prints each with `*n`); `LastEvaluatedTableName` is
the continuation token, `none` for a nil pointer. -/
structure ListTablesOutput where
  TableNames : List String
  LastEvaluatedTableName : Option String
  deriving DecidableEq, Repr

/-- An error value returned by an SDK call.  `aws code text` is an error for
which the type assertion `err.(awserr.Error)` succeeds, with `Code()` and
`Error()`; `other text` is any other error with its `Error()` text. -/
inductive SdkError where
  | aws (code : String) (text : String)
  | other (text : String)
  deriving DecidableEq, Repr

/-- One answer of the service to a `ListTables` request: `(result, err)`. -/
abbrev ListTablesResponse := Except SdkError ListTablesOutput

/-- The SDK constant `dynamodb.ErrCodeInternalServerError`. -/
def ErrCodeInternalServerError : String := "InternalServerError"

/-- Observable state of a run of `listTables`: the requests issued so far, in
order, and the text written to standard output. -/
structure Run where
  requests : List ListTablesInput
  stdout : String
  deriving DecidableEq, Repr

/-- The inner `for _, n := range result.TableNames { fmt.Println(*n) }`. -/
def printTableNames : List String → String → String
  | [], out => out
  | n :: ns, out => printTableNames ns (out ++ Println [n])

/-- The error branch of the loop body (lines 119-133): what is printed before
`return`. -/
def printError : SdkError → String
  | .aws code text =>
    if code = ErrCodeInternalServerError then
      Println [ErrCodeInternalServerError, text]
    else
      Println [text]
  | .other text => Println [text]

/-- The `for { ... }` loop of `listTables`, run against a scripted service:
the i-th call of `svc.ListTables` is answered by the i-th element of the
script.  The result is `none` when the loop asks for an answer the script does
not hold (the service never answered); otherwise the final run state and the
answers that were never asked for. -/
def listTablesLoop :
    List ListTablesResponse → ListTablesInput → Run → Option (Run × List ListTablesResponse)
  | [], _, _ => none
  | resp :: rest, input, run =>
    let run := { run with requests := run.requests ++ [input] }
    match resp with
    | .error err => some ({ run with stdout := run.stdout ++ printError err }, rest)
    | .ok result =>
      let run := { run with stdout := printTableNames result.TableNames run.stdout }
      let input := { input with ExclusiveStartTableName := result.LastEvaluatedTableName }
      if result.LastEvaluatedTableName = none then
        some (run, rest)
      else
        listTablesLoop rest input run

/-- `listTables(svc)`: a fresh `ListTablesInput{}`, the header line, then the
loop. -/
def listTables (script : List ListTablesResponse) : Option (Run × List ListTablesResponse) :=
  let input : ListTablesInput := { ExclusiveStartTableName := none }
  listTablesLoop script input { requests := [], stdout := "Tables:\n" }

/-- A response ends the loop when it is an error or carries no continuation
token. -/
def isFinal : ListTablesResponse → Bool
  | .error _ => true
  | .ok result => result.LastEvaluatedTableName = none


/-! ## The item types and their attribute-value encoding (lines 13-22) -/

/-- A `float64` field value, held by its shortest decimal text: the sign, the
digits before the point and the digits after it (no trailing zero).  This is
the form in which `strconv.FormatFloat(f, 'f', -1, 64)` writes the value and
`strconv.ParseFloat` reads it back; the program only uses `0.0` and `0.5`. -/
structure Float64 where
  negative : Bool
  whole : Nat
  fraction : List Nat
  deriving DecidableEq, Repr

/-- The Go literal `0.0` (also the zero value of `float64`). -/
def Float64.zero : Float64 := { negative := false, whole := 0, fraction := [] }

/-- The Go literal `0.5`. -/
def Float64.half : Float64 := { negative := false, whole := 0, fraction := [5] }

/-- The struct `ItemInfo` with JSON tags `plot`, `rating`. -/
structure ItemInfo where
  Plot : String
  Rating : Float64
  deriving DecidableEq, Repr

/-- The struct `Item` with JSON tags `year`, `title`, `info`. -/
structure Item where
  Year : Int
  Title : String
  Info : ItemInfo
  deriving DecidableEq, Repr

/-- The zero value `ItemInfo{}`. -/
def ItemInfo.zero : ItemInfo := { Plot := "", Rating := Float64.zero }

/-- The zero value `Item{}`. -/
def Item.zero : Item := { Year := 0, Title := "", Info := ItemInfo.zero }

/-- The part of `dynamodb.AttributeValue` the program produces and reads:
string `S`, number `N` (carried as text), `NULL: true`, and map `M`. -/
inductive AttributeValue where
  | S (s : String)
  | N (n : String)
  | NULL
  | M (m : List (String × AttributeValue))
  deriving Repr

/-- A `map[string]*dynamodb.AttributeValue`, as an association list with
distinct names. -/
abbrev AttributeMap := List (String × AttributeValue)

/-- Names bound by an attribute map. -/
def attributeNames (m : AttributeMap) : List String := m.map Prod.fst

/-- Value bound to a name in an attribute map; `none` when absent. -/
def lookupAttribute (name : String) : AttributeMap → Option AttributeValue
  | [] => none
  | (k, v) :: rest => if k = name then some v else lookupAttribute name rest

/-- The Go call `strconv.FormatFloat(f, 'f', -1, 64)` on the decimal form. -/
def FormatFloat (f : Float64) : String :=
  (if f.negative then "-" else "") ++ formatNat f.whole ++
    (if f.fraction = [] then "" else "." ++ String.mk (f.fraction.map digitChar))

/-- Digits of a fraction, trailing zeros dropped. -/
def dropTrailingZeros (ds : List Nat) : List Nat :=
  (ds.reverse.dropWhile (fun d => d == 0)).reverse

/-- Digit values of a run of digit characters. -/
def digitList : List Char → Option (List Nat)
  | [] => some []
  | c :: cs =>
    if '0' ≤ c ∧ c ≤ '9' then (digitList cs).map (fun ds => (c.toNat - 48) :: ds) else none

/-- The Go call `strconv.ParseFloat(s, 64)` on plain decimal text
`[-]digits[.digits]`, giving the decimal form.  It is exact on texts of at
most 15 significant digits, which a `float64` holds without rounding; longer
texts, which Go rounds to the nearest `float64`, and exponent or special forms
are outside this model. -/
def ParseFloat (s : String) : Option Float64 :=
  let (neg, body) : Bool × List Char :=
    match s.toList with
    | '-' :: cs => (true, cs)
    | cs => (false, cs)
  let whole := body.takeWhile (fun c => c != '.')
  let rest := body.dropWhile (fun c => c != '.')
  match parseNat whole, rest with
  | some w, [] => some { negative := neg, whole := w, fraction := [] }
  | some w, _ :: frac =>
    if frac = [] then none
    else (digitList frac).map
      (fun ds => { negative := neg, whole := w, fraction := dropTrailingZeros ds })
  | none, _ => none

/-- Encoding of a Go `string` field by `dynamodbattribute` (default options:
`NullEmptyString`): the empty string becomes `NULL`. -/
def encodeString (s : String) : AttributeValue :=
  if s = "" then .NULL else .S s

/-- Encoding of `ItemInfo` by `dynamodbattribute`: a map with one entry per
field, named by the JSON tag. -/
def encodeItemInfo (info : ItemInfo) : AttributeMap :=
  [("plot", encodeString info.Plot), ("rating", .N (FormatFloat info.Rating))]

/-- Encoding of `Item` by `dynamodbattribute`: the nested struct becomes an
`M` attribute; no field is tagged `omitempty`, so all three are present. -/
def encodeItem (item : Item) : AttributeMap :=
  [("year", .N (FormatInt item.Year)), ("title", encodeString item.Title),
   ("info", .M (encodeItemInfo item.Info))]

/-- The Go call `dynamodbattribute.MarshalMap(info)` for an `ItemInfo`; it has
no failing case for this type. -/
def MarshalMapInfo (info : ItemInfo) : Except String AttributeMap :=
  .ok (encodeItemInfo info)

/-- The Go call `dynamodbattribute.MarshalMap(item)` for an `Item`; it has no
failing case for this type. -/
def MarshalMap (item : Item) : Except String AttributeMap :=
  .ok (encodeItem item)

/-- Decoding one attribute into a `string` field; a number is stored as its
text. -/
def decodeString (cur : String) : AttributeValue → Except String String
  | .S s => .ok s
  | .NULL => .ok ""
  | .N n => .ok n
  | .M [] => .ok cur
  | .M _ => .error "UnmarshalTypeError: cannot unmarshal map into Go value of type string"

/-- Decoding one attribute into an `int` field. -/
def decodeInt (cur : Int) : AttributeValue → Except String Int
  | .N n =>
    match ParseInt n with
    | some i => .ok i
    | none => .error (ParseIntError n)
  | .NULL => .ok 0
  | .S _ => .error "UnmarshalTypeError: cannot unmarshal string into Go value of type int"
  | .M [] => .ok cur
  | .M _ => .error "UnmarshalTypeError: cannot unmarshal map into Go value of type int"

/-- Decoding one attribute into a `float64` field. -/
def decodeFloat (cur : Float64) : AttributeValue → Except String Float64
  | .N n =>
    match ParseFloat n with
    | some f => .ok f
    | none => .error ("strconv.ParseFloat: parsing " ++ Quote n ++ ": invalid syntax")
  | .NULL => .ok Float64.zero
  | .S _ => .error "UnmarshalTypeError: cannot unmarshal string into Go value of type float64"
  | .M [] => .ok cur
  | .M _ => .error "UnmarshalTypeError: cannot unmarshal map into Go value of type float64"

/-- Whether an attribute name selects the field with the given tag: it
equals the tag, or does so with upper and lower case letters taken as equal
(the tags of `Item` and `ItemInfo` are lower-case letters). -/
def namesField (k tag : String) : Bool :=
  k = tag || String.mk (k.toList.map Char.toLower) = tag

/-- Decoding a map into an `ItemInfo`: every entry whose name selects a field
is decoded into that field, the others are skipped. -/
def decodeItemInfo : AttributeMap → ItemInfo → Except String ItemInfo
  | [], info => .ok info
  | (k, v) :: rest, info =>
    if namesField k "plot" then
      (decodeString info.Plot v).bind (fun s => decodeItemInfo rest { info with Plot := s })
    else if namesField k "rating" then
      (decodeFloat info.Rating v).bind (fun f => decodeItemInfo rest { info with Rating := f })
    else decodeItemInfo rest info

/-- Decoding one attribute into the `Info` field. -/
def decodeInfoField (cur : ItemInfo) : AttributeValue → Except String ItemInfo
  | .M m => decodeItemInfo m cur
  | .NULL => .ok ItemInfo.zero
  | .S _ => .error "UnmarshalTypeError: cannot unmarshal string into Go value of type main.ItemInfo"
  | .N _ => .error "UnmarshalTypeError: cannot unmarshal number into Go value of type main.ItemInfo"

/-- Decoding a map into an `Item`. -/
def decodeItem : AttributeMap → Item → Except String Item
  | [], item => .ok item
  | (k, v) :: rest, item =>
    if namesField k "year" then
      (decodeInt item.Year v).bind (fun y => decodeItem rest { item with Year := y })
    else if namesField k "title" then
      (decodeString item.Title v).bind (fun t => decodeItem rest { item with Title := t })
    else if namesField k "info" then
      (decodeInfoField item.Info v).bind (fun i => decodeItem rest { item with Info := i })
    else decodeItem rest item

/-- The Go call `dynamodbattribute.UnmarshalMap(m, &item)`: a nil or empty map
leaves `item` untouched. -/
def UnmarshalMap (m : AttributeMap) (item : Item) : Except String Item :=
  decodeItem m item


/-! ## Requests, the client and the process state -/

/-- The Go method `Error()` of an error value. -/
def SdkError.Error : SdkError → String
  | .aws _ text => text
  | .other text => text

/-- The SDK type `dynamodb.AttributeDefinition`. -/
structure AttributeDefinition where
  AttributeName : String
  AttributeType : String
  deriving DecidableEq, Repr

/-- The SDK type `dynamodb.KeySchemaElement`. -/
structure KeySchemaElement where
  AttributeName : String
  KeyType : String
  deriving DecidableEq, Repr

/-- The SDK type `dynamodb.ProvisionedThroughput`. -/
structure ProvisionedThroughput where
  ReadCapacityUnits : Int
  WriteCapacityUnits : Int
  deriving DecidableEq, Repr

/-- The SDK type `dynamodb.CreateTableInput`, with the fields the program sets. -/
structure CreateTableInput where
  AttributeDefinitions : List AttributeDefinition
  KeySchema : List KeySchemaElement
  ProvisionedThroughput : ProvisionedThroughput
  TableName : String
  deriving DecidableEq, Repr

/-- The SDK type `dynamodb.PutItemInput`, with the fields the program sets. -/
structure PutItemInput where
  Item : AttributeMap
  TableName : String
  deriving Repr

/-- The SDK type `dynamodb.GetItemInput`, with the fields the program sets. -/
structure GetItemInput where
  TableName : String
  Key : AttributeMap
  deriving Repr

/-- The SDK type `dynamodb.DeleteItemInput`, with the fields the program sets. -/
structure DeleteItemInput where
  Key : AttributeMap
  TableName : String
  deriving Repr

/-- The SDK type `dynamodb.UpdateItemInput`, with the fields the program sets. -/
structure UpdateItemInput where
  ExpressionAttributeValues : AttributeMap
  TableName : String
  Key : AttributeMap
  ReturnValues : String
  UpdateExpression : String
  deriving Repr

/-- A request handed to the client. -/
inductive Request where
  | CreateTable (input : CreateTableInput)
  | PutItem (input : PutItemInput)
  | GetItem (input : GetItemInput)
  | DeleteItem (input : DeleteItemInput)
  | UpdateItem (input : UpdateItemInput)
  deriving Repr

/-- The client `svc *dynamodb.DynamoDB` as the program sees it: each method
takes a request and answers with an error or a result, and may change the
state `σ` of the service behind it.  `GetItem` answers with the `Item` map of
its output (empty when the output carries none). -/
structure Client (σ : Type) where
  CreateTable : CreateTableInput → σ → Option SdkError × σ
  PutItem : PutItemInput → σ → Option SdkError × σ
  GetItem : GetItemInput → σ → Except SdkError AttributeMap × σ
  DeleteItem : DeleteItemInput → σ → Option SdkError × σ
  UpdateItem : UpdateItemInput → σ → Option SdkError × σ

/-- State of a run of the program: the service behind the client, the text on
standard output, and the requests handed to the client so far. -/
structure World (σ : Type) where
  service : σ
  stdout : String
  requests : List Request

/-- How a function of the program ends: it returns to its caller, the process
exits with a status (`os.Exit`), or it panics with a message. -/
inductive Outcome where
  | returned
  | exited (code : Nat)
  | panicked (msg : String)
  deriving DecidableEq, Repr

/-- Writing with `fmt.Println` to standard output. -/
def World.println {σ : Type} (w : World σ) (operands : List String) : World σ :=
  { w with stdout := w.stdout ++ Println operands }

/-- Recording a request and the service state after it. -/
def World.called {σ : Type} (w : World σ) (r : Request) (s : σ) : World σ :=
  { w with service := s, requests := w.requests ++ [r] }

/-- Running one function of the program after another: the second runs only
if the first returned. -/
def andThen {σ : Type} (f g : World σ → Outcome × World σ) (w : World σ) :
    Outcome × World σ :=
  match f w with
  | (.returned, w1) => g w1
  | r => r

/-! ## `createTable`, `createItem`, `deleteItem`, `readItem`, `updateItem` -/

/-- The request `createTable` builds (lines 37-63). -/
def createTableInput : CreateTableInput :=
  { AttributeDefinitions :=
      [{ AttributeName := "year", AttributeType := "N" },
       { AttributeName := "title", AttributeType := "S" }]
    KeySchema :=
      [{ AttributeName := "year", KeyType := "HASH" },
       { AttributeName := "title", KeyType := "RANGE" }]
    ProvisionedThroughput := { ReadCapacityUnits := 10, WriteCapacityUnits := 10 }
    TableName := "Movies" }

/-- `createTable(svc)` (lines 34-72). -/
def createTable {σ : Type} (svc : Client σ) (w : World σ) : Outcome × World σ :=
  let input := createTableInput
  let (err, s) := svc.CreateTable input w.service
  let w := w.called (.CreateTable input) s
  match err with
  | some e =>
    (.exited 1, (w.println ["Got error calling CreateTable:"]).println [e.Error])
  | none => (.returned, w.println ["Created the table Movies"])

/-- `createItem(svc)` (lines 74-110). -/
def createItem {σ : Type} (svc : Client σ) (w : World σ) : Outcome × World σ :=
  let info : ItemInfo := { Plot := "Nothing happens at all.", Rating := Float64.zero }
  let item : Item := { Year := 2015, Title := "The Big New Movie", Info := info }
  match MarshalMap item with
  | .error e => (.exited 1, (w.println ["Got error marshalling map:"]).println [e])
  | .ok av =>
    let input : PutItemInput := { Item := av, TableName := "Movies" }
    let (err, s) := svc.PutItem input w.service
    let w := w.called (.PutItem input) s
    match err with
    | some e => (.exited 1, (w.println ["Got error calling PutItem:"]).println [e.Error])
    | none =>
      (.returned, w.println ["Successfully added 'The Big New Movie' (2015) to Movies table"])

/-- `deleteItem(svc)` (lines 149-176). -/
def deleteItem {σ : Type} (svc : Client σ) (w : World σ) : Outcome × World σ :=
  let item : Item := { Year := 2015, Title := "The Big New Movie", Info := ItemInfo.zero }
  match MarshalMap item with
  | .error e => (.exited 1, (w.println ["Got error marshalling map:"]).println [e])
  | .ok av =>
    let input : DeleteItemInput := { Key := av, TableName := "Movies" }
    let (err, s) := svc.DeleteItem input w.service
    let w := w.called (.DeleteItem input) s
    match err with
    | some e => (.returned, (w.println ["Got error calling DeleteItem"]).println [e.Error])
    | none => (.returned, w.println ["Deleted 'The Big New Movie' (2015)"])

/-- The request `readItem` sends (lines 180-191). -/
def readItemInput : GetItemInput :=
  { TableName := "Movies"
    Key := [("year", .N "2015"), ("title", .S "The Big New Movie")] }

/-- Decimal text of an exponent as `%e` writes it: a sign and at least two
digits. -/
def exponentText (e : Int) : String :=
  (if e < 0 then "-" else "+") ++
    (if e.natAbs < 10 then "0" else "") ++ formatNat e.natAbs

/-- Text of a `float64` operand of `fmt.Println` (the verb `%v`, that is `%g`
with the shortest digits): exponent form when the decimal exponent is below
-4 or at least 6, as for 0.00001 (`1e-05`) and 1000000 (`1e+06`), and plain
decimal text otherwise. -/
def showFloat (f : Float64) : String :=
  let wholeChars : List Char := if f.whole = 0 then [] else (formatNat f.whole).toList
  let allChars := wholeChars ++ f.fraction.map digitChar
  let leading := (allChars.takeWhile (fun c => c == '0')).length
  let digits :=
    ((allChars.dropWhile (fun c => c == '0')).reverse.dropWhile (fun c => c == '0')).reverse
  let exp : Int := (wholeChars.length : Int) - (leading : Int) - 1
  match digits with
  | [] => FormatFloat f
  | d :: more =>
    if exp < -4 ∨ exp ≥ 6 then
      (if f.negative then "-" else "") ++ String.mk (d :: (if more = [] then [] else '.' :: more))
        ++ "e" ++ exponentText exp
    else FormatFloat f

/-- `readItem(svc)` (lines 179-216). -/
def readItem {σ : Type} (svc : Client σ) (w : World σ) : Outcome × World σ :=
  let input := readItemInput
  let (result, s) := svc.GetItem input w.service
  let w := w.called (.GetItem input) s
  match result with
  | .error e => (.returned, w.println [e.Error])
  | .ok resultItem =>
    let item := Item.zero
    match UnmarshalMap resultItem item with
    | .error e => (.panicked ("Failed to unmarshal Record, " ++ e), w)
    | .ok item =>
      if item.Title = "" then
        (.returned, w.println ["Could not find 'The Big New Movie' (2015)"])
      else
        let w := w.println ["Found item:"]
        let w := w.println ["Year:  ", FormatInt item.Year]
        let w := w.println ["Title: ", item.Title]
        let w := w.println ["Plot:  ", item.Info.Plot]
        let w := w.println ["Rating:", showFloat item.Info.Rating]
        (.returned, w)

/-- `updateItem(svc)` (lines 218-258). -/
def updateItem {σ : Type} (svc : Client σ) (w : World σ) : Outcome × World σ :=
  let info : ItemInfo := { Plot := "", Rating := Float64.half }
  let item : Item := { Year := 2015, Title := "The Big New Movie", Info := ItemInfo.zero }
  match MarshalMapInfo info with
  | .error e => (.exited 1, (w.println ["Got error marshalling info:"]).println [e])
  | .ok expr =>
    match MarshalMap item with
    | .error e => (.exited 1, (w.println ["Got error marshalling item:"]).println [e])
    | .ok key =>
      let input : UpdateItemInput :=
        { ExpressionAttributeValues := expr
          TableName := "Movies"
          Key := key
          ReturnValues := "UPDATED_NEW"
          UpdateExpression := "set info.rating = :r" }
      let (err, s) := svc.UpdateItem input w.service
      let w := w.called (.UpdateItem input) s
      match err with
      | some e => (.returned, w.println [e.Error])
      | none =>
        (.returned, w.println ["Successfully updated 'The Big New Movie' (2015) rating to 0.5"])


/-! ## The document store behind the client

The service is outside the repository.  Its model here is the one the
properties of the store are stated against: a table holding at most one item
per primary key, the key being the attributes of the key schema the table was
created with. -/

/-- A value of a key attribute: a number or a string. -/
inductive KeyValue where
  | num (i : Int)
  | str (s : String)
  deriving DecidableEq, Repr

/-- A table: its name, attribute definitions and key schema as given at
creation, and the stored items, each under its primary key. -/
structure Table where
  name : String
  definitions : List AttributeDefinition
  schema : List KeySchemaElement
  items : List (List KeyValue × AttributeMap)

/-- The store: no table yet, or one table. -/
abbrev Store := Option Table

/-- Declared type (`"N"`, `"S"`) of an attribute name. -/
def attributeType (defs : List AttributeDefinition) (name : String) : Option String :=
  (defs.find? (fun d => d.AttributeName = name)).map (fun d => d.AttributeType)

/-- The key value an attribute carries, if it has the declared type. -/
def keyValue (declared : Option String) (v : AttributeValue) : Option KeyValue :=
  match declared, v with
  | some "N", .N n => (ParseInt n).map KeyValue.num
  | some "S", .S s => some (KeyValue.str s)
  | _, _ => none

/-- Primary key of an attribute map: the values of the key-schema attributes,
in schema order; `none` if one is missing or has the wrong type. -/
def primaryKey (t : Table) (m : AttributeMap) : Option (List KeyValue) :=
  t.schema.mapM (fun e =>
    (lookupAttribute e.AttributeName m).bind (keyValue (attributeType t.definitions e.AttributeName)))

/-- Whether the attribute set of a request `Key` is exactly the set of
key-schema attributes. -/
def isExactKey (t : Table) (key : AttributeMap) : Bool :=
  (attributeNames key).length = t.schema.length &&
    t.schema.all (fun e => (attributeNames key).contains e.AttributeName) &&
    (attributeNames key).all (fun n => (t.schema.map (fun e => e.AttributeName)).contains n)

/-- Error of a request naming a table that does not exist. -/
def resourceNotFound : SdkError :=
  .aws "ResourceNotFoundException" "ResourceNotFoundException: Requested resource not found"

/-- Error of a request whose key does not fit the key schema. -/
def keyMismatch : SdkError :=
  .aws "ValidationException"
    "ValidationException: The provided key element does not match the schema"

/-- Error of an item lacking a key attribute of the declared type. -/
def missingKey : SdkError :=
  .aws "ValidationException"
    "ValidationException: One or more parameter values were invalid: Missing the key in the item"

/-- Error of creating a table that exists. -/
def resourceInUse : SdkError :=
  .aws "ResourceInUseException" "ResourceInUseException: Table already exists"

/-- Creating the table: fails if it exists. -/
def Store.CreateTable (input : CreateTableInput) (s : Store) : Option SdkError × Store :=
  match s with
  | some _ => (some resourceInUse, s)
  | none =>
    (none, some { name := input.TableName, definitions := input.AttributeDefinitions,
                  schema := input.KeySchema, items := [] })

/-- Storing an item under its key attributes, replacing the item that was
under that key. -/
def Store.PutItem (input : PutItemInput) (s : Store) : Option SdkError × Store :=
  match s with
  | none => (some resourceNotFound, s)
  | some t =>
    if t.name ≠ input.TableName then (some resourceNotFound, s)
    else
      match primaryKey t input.Item with
      | none => (some missingKey, s)
      | some k =>
        (none, some { t with items := (k, input.Item) :: t.items.filter (fun e => e.1 ≠ k) })

/-- Validated primary key of a request `Key`. -/
def requestKey (t : Table) (key : AttributeMap) : Option (List KeyValue) :=
  if isExactKey t key then primaryKey t key else none

/-- Reading the attribute map stored under the requested key; the empty map
when nothing is stored there. -/
def Store.GetItem (input : GetItemInput) (s : Store) : Except SdkError AttributeMap × Store :=
  match s with
  | none => (.error resourceNotFound, s)
  | some t =>
    if t.name ≠ input.TableName then (.error resourceNotFound, s)
    else
      match requestKey t input.Key with
      | none => (.error keyMismatch, s)
      | some k =>
        match t.items.find? (fun e => e.1 = k) with
        | some e => (.ok e.2, s)
        | none => (.ok [], s)

/-- Removing the item whose primary key equals the request's key; a key whose
attribute set is not exactly the key schema's is rejected. -/
def Store.DeleteItem (input : DeleteItemInput) (s : Store) : Option SdkError × Store :=
  match s with
  | none => (some resourceNotFound, s)
  | some t =>
    if t.name ≠ input.TableName then (some resourceNotFound, s)
    else
      match requestKey t input.Key with
      | none => (some keyMismatch, s)
      | some k => (none, some { t with items := t.items.filter (fun e => e.1 ≠ k) })

/-- The client over the store.  The evaluation of update expressions is not
part of the store model and is supplied by `update`. -/
def storeClient (update : UpdateItemInput → Store → Option SdkError × Store) : Client Store :=
  { CreateTable := Store.CreateTable
    PutItem := Store.PutItem
    GetItem := Store.GetItem
    DeleteItem := Store.DeleteItem
    UpdateItem := update }

/-- The table Movies as `createTable` declares it, holding no item. -/
def emptyMovies : Store :=
  (Store.CreateTable createTableInput none).2

/-- A process that has printed nothing and called nothing, in front of the
empty table Movies. -/
def initialWorld : World Store :=
  { service := emptyMovies, stdout := "", requests := [] }

/-! ## Placeholders of an expression -/

/-- Whether a character may continue a placeholder name. -/
def isNameChar (c : Char) : Bool :=
  c.isAlphanum || c = '_'

/-- The value placeholders (`:name`) an expression references, in order of
appearance.  `cur` is the placeholder being read, if any. -/
def scanPlaceholders : List Char → Option (List Char) → List String
  | [], none => []
  | [], some cur => [String.mk cur]
  | c :: cs, none =>
    if c = ':' then scanPlaceholders cs (some [':']) else scanPlaceholders cs none
  | c :: cs, some cur =>
    if isNameChar c then scanPlaceholders cs (some (cur ++ [c]))
    else if c = ':' then String.mk cur :: scanPlaceholders cs (some [':'])
    else String.mk cur :: scanPlaceholders cs none

/-- The value placeholders of an expression. -/
def placeholders (expr : String) : List String :=
  scanPlaceholders expr.toList none

end DynamoDB


namespace Kinesis

open Go

/-! ## `putRecords` (kinesis/main.go, lines 54-73) -/

/-- The SDK type `kinesis.PutRecordsRequestEntry`, with the fields the program
sets. -/
structure PutRecordsRequestEntry where
  Data : List Nat
  PartitionKey : String
  deriving DecidableEq, Repr

/-- The SDK type `kinesis.PutRecordsInput`.  `Records` is a slice of pointers
(a nil pointer is `none`); `StreamName` is the pointer the caller passed. -/
structure PutRecordsInput where
  Records : List (Option PutRecordsRequestEntry)
  StreamName : Option String
  deriving DecidableEq, Repr

/-- State of a run: the text on standard output and the `PutRecords` requests
sent so far. -/
structure World where
  stdout : String
  requests : List PutRecordsInput
  deriving DecidableEq, Repr

/-- How the function ends: it returns, or it panics with the error. -/
inductive Outcome where
  | returned
  | panicked (err : String)
  deriving DecidableEq, Repr

/-- The Go call `fmt.Sprintf("hoge%d", i)` for an `int` operand. -/
def hogeText (i : Nat) : String := "hoge" ++ FormatInt (Int.ofNat i)

/-- The loop `for i := 0; i < len(entries); i++ { entries[i] = &... }`,
entered with counter `i`. -/
def fillEntries (i : Nat) (entries : List (Option PutRecordsRequestEntry)) :
    List (Option PutRecordsRequestEntry) :=
  if i < entries.length then
    fillEntries (i + 1)
      (entries.set i (some { Data := bytes (hogeText i), PartitionKey := "key2" }))
  else entries
termination_by entries.length - i
decreasing_by simp_wf; omega

/-- `putRecords(kc, streamName)`.  The text `fmt.Printf("%v\n", x)` gives an
SDK value is the SDK's own rendering, supplied as `showEntries` and
`showOutput`; the answer of `kc.PutRecords` is supplied by `PutRecords`. -/
def putRecords {Out : Type} (showEntries : List (Option PutRecordsRequestEntry) → String)
    (showOutput : Out → String) (PutRecords : PutRecordsInput → Except String Out)
    (streamName : Option String) (w : World) : Outcome × World :=
  let entries : List (Option PutRecordsRequestEntry) := List.replicate 10 none
  let entries := fillEntries 0 entries
  let w := { w with stdout := w.stdout ++ (showEntries entries ++ "\n") }
  let input : PutRecordsInput := { Records := entries, StreamName := streamName }
  let w := { w with requests := w.requests ++ [input] }
  match PutRecords input with
  | .error err => (.panicked err, w)
  | .ok putsOutput => (.returned, { w with stdout := w.stdout ++ (showOutput putsOutput ++ "\n") })

end Kinesis

namespace S3

open Go

/-! ## Formatting (`fmt.Printf`, `fmt.Fprintf`) -/

/-- An error value: its dynamic Go type and its `Error()` text. -/
structure Error where
  typeName : String
  text : String
  deriving DecidableEq, Repr

/-- A `time.Time`, held by its `String()` text. -/
structure Time where
  text : String
  deriving DecidableEq, Repr

/-- An operand handed to a formatting call as `interface{}`. -/
inductive Arg where
  | str (s : String)
  | err (e : Error)
  | time (t : Time)
  deriving DecidableEq, Repr

/-- Text of an operand under `%v` and `%s`: the string itself, `Error()` of an
error, `String()` of a time. -/
def Arg.text : Arg → String
  | .str s => s
  | .err e => e.text
  | .time t => t.text

/-- Go type of an operand, as `%T` names it. -/
def Arg.typeName : Arg → String
  | .str _ => "string"
  | .err e => e.typeName
  | .time _ => "time.Time"

/-- One operand under one verb.  The program uses `%v`, `%s` and `%q`, which
are rendered as `fmt` renders them; any other character in the place of the
verb is reported the way `fmt` reports a verb it rejects. -/
def formatVerb (verb : Char) (a : Arg) : String :=
  if verb = 'v' ∨ verb = 's' then a.text
  else if verb = 'q' then Quote a.text
  else "%!" ++ String.singleton verb ++ "(" ++ a.typeName ++ "=" ++ a.text ++ ")"

/-- What `fmt` appends when operands are left over after the format. -/
def formatExtra : List Arg → String
  | [] => ""
  | a :: rest =>
    "%!(EXTRA " ++ ", ".intercalate ((a :: rest).map (fun x => x.typeName ++ "=" ++ x.text)) ++ ")"

/-- The scan of a format: plain characters are copied, `%%` is a percent sign,
`%` and a verb consume one operand (`%!verb(MISSING)` when none is left), a
`%` ending the format is `%!(NOVERB)`, and left-over operands are reported at
the end.  This is the scan of `fmt` for formats built from plain text and the
directives `%v`, `%s`, `%q` and `%%`, the only ones the program writes;
flags, width, precision and argument indexes between `%` and the verb are not
part of the model, and nothing is stated of formats that carry them. -/
def formatChars : List Char → List Arg → String
  | [], args => formatExtra args
  | c :: cs, args =>
    if c = '%' then
      match cs with
      | [] => "%!(NOVERB)" ++ formatExtra args
      | verb :: rest =>
        if verb = '%' then "%" ++ formatChars rest args
        else
          match args with
          | [] => "%!" ++ String.singleton verb ++ "(MISSING)" ++ formatChars rest []
          | a :: more => formatVerb verb a ++ formatChars rest more
    else String.singleton c ++ formatChars cs args

/-- The Go call `fmt.Sprintf(format, args...)`; `Printf` and `Fprintf` write
this text. -/
def Sprintf (format : String) (args : List Arg) : String :=
  formatChars format.toList args

/-! ## Calls, answers and the process state -/

/-- An open file, held by its name. -/
structure File where
  name : String
  deriving DecidableEq, Repr

/-- A call the program makes to the SDK or to the file system, with the
request fields it sets. -/
inductive Call where
  | CreateBucket (Bucket : String)
  | WaitUntilBucketExists (Bucket : String)
  | PutObject (Body : String) (Bucket : String) (Key : String)
  | ListBuckets
  | ListObjects (Bucket : String)
  | DeleteBucket (Bucket : String)
  | WaitUntilBucketNotExists (Bucket : String)
  | DeleteObject (Bucket : String) (Key : String)
  | WaitUntilObjectNotExists (Bucket : String) (Key : String)
  | CopyObject (Bucket : String) (CopySource : String) (Key : String)
  | WaitUntilObjectExists (Bucket : String) (Key : String)
  | Open (name : String)
  | Upload (Bucket : String) (Key : String) (Body : File)
  | Create (name : String)
  | Download (w : File) (Bucket : String) (Key : String)
  deriving DecidableEq, Repr

/-- The SDK type `s3.Bucket`; both fields are pointers read through
`aws.StringValue` and `aws.TimeValue`. -/
structure Bucket where
  Name : Option String
  CreationDate : Option Time
  deriving DecidableEq, Repr

/-- The SDK type `s3.Object`, with the four fields the program dereferences.
Each is a pointer: `none` is the nil pointer the SDK leaves for a field the
answer does not carry. -/
structure Object where
  Key : Option String
  LastModified : Option Time
  Size : Option Int
  StorageClass : Option String
  deriving DecidableEq, Repr

/-- What a call answers: an error, or success with the result the program
reads from it. -/
inductive Answer where
  | failed (err : Error)
  | ok
  | buckets (list : List Bucket)
  | objects (list : List Object)
  | count (numBytes : Int)
  deriving DecidableEq, Repr

/-- The `err` of an answer; `none` is `nil`. -/
def Answer.err : Answer → Option Error
  | .failed e => some e
  | _ => none

/-- The `Buckets` of a `ListBuckets` result. -/
def Answer.Buckets : Answer → List Bucket
  | .buckets l => l
  | _ => []

/-- The `Contents` of a `ListObjects` result.  The SDK allocates every entry
it lists, so the entries are objects; their fields may be nil. -/
def Answer.Contents : Answer → List Object
  | .objects l => l
  | _ => []

/-- The byte count of a `Download` result. -/
def Answer.numBytes : Answer → Int
  | .count n => n
  | _ => 0

/-- The SDK, the service and the file system, as the program meets them: each
call has an answer. -/
abbrev Env := Call → Answer

/-- Something the process did that can be seen from outside. -/
inductive Event where
  | call (c : Call)
  | stdout (text : String)
  | stderr (text : String)
  deriving DecidableEq, Repr

/-- How a function of the program ends: it returns to its caller, the process
exits with a status (`os.Exit`), or it panics on a nil pointer dereference
(the Go runtime then ends the process with status 2); each with the events so
far.  What the runtime prints of a panic is not among the events. -/
inductive Result where
  | returned (trace : List Event)
  | exited (code : Nat) (trace : List Event)
  | panicked (trace : List Event)
  deriving DecidableEq, Repr

/-- The events of a result. -/
def Result.trace : Result → List Event
  | .returned t => t
  | .exited _ t => t
  | .panicked t => t

/-- The text a trace wrote to standard output. -/
def stdoutText : List Event → String
  | [] => ""
  | .stdout s :: rest => s ++ stdoutText rest
  | _ :: rest => stdoutText rest

/-- The text a trace wrote to standard error. -/
def stderrText : List Event → String
  | [] => ""
  | .stderr s :: rest => s ++ stderrText rest
  | _ :: rest => stderrText rest

/-- The calls of a trace, in order. -/
def callsOf : List Event → List Call
  | [] => []
  | .call c :: rest => c :: callsOf rest
  | _ :: rest => callsOf rest

/-- The Go call `aws.StringValue`. -/
def StringValue : Option String → String
  | some s => s
  | none => ""

/-- The Go call `aws.TimeValue`; a nil pointer gives the zero time. -/
def TimeValue : Option Time → Time
  | some t => t
  | none => { text := "0001-01-01 00:00:00 +0000 UTC" }

/-! ## The operations (s3/main.go) -/

/-- `exitErrorf(msg, args...)` (lines 189-192). -/
def exitErrorf (msg : String) (args : List Arg) (t : List Event) : Result :=
  .exited 1 (t ++ [.stderr (Sprintf (msg ++ "\n") args)])

/-- `createNewBucketAndObject(svc, bucket, key)` (lines 22-44). -/
def createNewBucketAndObject (svc : Env) (bucket key : String) (t : List Event) : Result :=
  let t := t ++ [.call (.CreateBucket bucket)]
  match (svc (.CreateBucket bucket)).err with
  | some err => exitErrorf "Failed to create bucket %v" [.err err] t
  | none =>
    let t := t ++ [.call (.WaitUntilBucketExists bucket)]
    match (svc (.WaitUntilBucketExists bucket)).err with
    | some err =>
      exitErrorf "Failed to wait for bucket to exist %s, %s\n" [.str bucket, .err err] t
    | none =>
      let t := t ++ [.call (.PutObject "Hello World!" bucket key)]
      match (svc (.PutObject "Hello World!" bucket key)).err with
      | some err =>
        exitErrorf "Failed to upload data to %s/%s, %s\n" [.str bucket, .str key, .err err] t
      | none =>
        .returned (t ++ [.stdout (Sprintf
          "Successfully created bucket %s and uploaded data with key %s\n"
          [.str bucket, .str key])])

/-- The loop of `listBuckets` over `result.Buckets`. -/
def printBuckets : List Bucket → List Event → List Event
  | [], t => t
  | b :: rest, t =>
    printBuckets rest (t ++ [.stdout (Sprintf "* %s created on %s\n"
      [.str (StringValue b.Name), .time (TimeValue b.CreationDate)])])

/-- `listBuckets(svc)` (lines 46-58). -/
def listBuckets (svc : Env) (t : List Event) : Result :=
  let t := t ++ [.call .ListBuckets]
  match (svc .ListBuckets).err with
  | some err => exitErrorf "Unable to list buckets, %v" [.err err] t
  | none =>
    let t := t ++ [.stdout (Println ["Buckets:"])]
    .returned (printBuckets (svc .ListBuckets).Buckets t)

/-- The loop of `listObjects` over `resp.Contents` (lines 66-72).  Each of the
first four lines dereferences one field before it prints, and panics if that
field is nil. -/
def printObjects : List Object → List Event → Result
  | [], t => .returned t
  | item :: rest, t =>
    match item.Key with
    | none => .panicked t
    | some key =>
      let t := t ++ [.stdout (Println ["Name: ", key])]
      match item.LastModified with
      | none => .panicked t
      | some lastModified =>
        let t := t ++ [.stdout (Println ["Last Modified: ", lastModified.text])]
        match item.Size with
        | none => .panicked t
        | some size =>
          let t := t ++ [.stdout (Println ["Size: ", FormatInt size])]
          match item.StorageClass with
          | none => .panicked t
          | some storageClass =>
            let t := t ++ [.stdout (Println ["Storage class: ", storageClass])]
            let t := t ++ [.stdout (Println [""])]
            printObjects rest t

/-- `listObjects(svc, bucket)` (lines 60-73). -/
def listObjects (svc : Env) (bucket : String) (t : List Event) : Result :=
  let t := t ++ [.call (.ListObjects bucket)]
  match (svc (.ListObjects bucket)).err with
  | some err => exitErrorf "Unable to list items in bucket %q, %v" [.str bucket, .err err] t
  | none => printObjects (svc (.ListObjects bucket)).Contents t

/-- `createBucket(svc, bucket)` (lines 75-95). -/
def createBucket (svc : Env) (bucket : String) (t : List Event) : Result :=
  let t := t ++ [.call (.CreateBucket bucket)]
  match (svc (.CreateBucket bucket)).err with
  | some err => exitErrorf "Unable to create bucket %q, %v" [.str bucket, .err err] t
  | none =>
    let t := t ++ [.stdout (Sprintf "Waiting for bucket %q to be created...\n" [.str bucket])]
    let t := t ++ [.call (.WaitUntilBucketExists bucket)]
    match (svc (.WaitUntilBucketExists bucket)).err with
    | some _ =>
      exitErrorf "Error occurred while waiting for bucket to be created %v" [.str bucket] t
    | none => .returned (t ++ [.stdout (Sprintf "Bucket %q successfully created\n" [.str bucket])])

/-- `deleteBucket(svc, bucket)` (lines 97-116). -/
def deleteBucket (svc : Env) (bucket : String) (t : List Event) : Result :=
  let t := t ++ [.call (.DeleteBucket bucket)]
  match (svc (.DeleteBucket bucket)).err with
  | some err => exitErrorf "Unable to delete bucket %q, %v" [.str bucket, .err err] t
  | none =>
    let t := t ++ [.stdout (Sprintf "Waiting for bucket %q to be deleted...\n" [.str bucket])]
    let t := t ++ [.call (.WaitUntilBucketNotExists bucket)]
    match (svc (.WaitUntilBucketNotExists bucket)).err with
    | some _ =>
      exitErrorf "Error occurred while waiting for bucket to be deleted, %v" [.str bucket] t
    | none => .returned (t ++ [.stdout (Sprintf "Bucket %q successfully deleted\n" [.str bucket])])

/-- `deleteObject(svc, bucket, key)` (lines 118-134). -/
def deleteObject (svc : Env) (bucket key : String) (t : List Event) : Result :=
  let t := t ++ [.call (.DeleteObject bucket key)]
  match (svc (.DeleteObject bucket key)).err with
  | some err =>
    exitErrorf "Unable to delete object %q from bucket %q, %v" [.str key, .str bucket, .err err] t
  | none =>
    let t := t ++ [.call (.WaitUntilObjectNotExists bucket key)]
    match (svc (.WaitUntilObjectNotExists bucket key)).err with
    | some err =>
      exitErrorf "Error occurred while waiting for object %q to be deleted, %v"
        [.str key, .err err] t
    | none => .returned (t ++ [.stdout (Sprintf "Object %q successfully deleted\n" [.str key])])

/-- `copyObject(svc, from, bucket, key)` (lines 136-150). -/
def copyObject (svc : Env) («from» bucket key : String) (t : List Event) : Result :=
  let t := t ++ [.call (.CopyObject bucket «from» key)]
  match (svc (.CopyObject bucket «from» key)).err with
  | some err =>
    exitErrorf "Unable to copy item from bucket %q to bucket %q, %v"
      [.str bucket, .str «from», .err err] t
  | none =>
    let t := t ++ [.call (.WaitUntilObjectExists bucket key)]
    match (svc (.WaitUntilObjectExists bucket key)).err with
    | some err =>
      exitErrorf "Error occurred while waiting for item %q to be copied to bucket %q, %v"
        [.str bucket, .str key, .str «from», .err err] t
    | none =>
      .returned (t ++ [.stdout (Sprintf
        "Item %q successfully copied from bucket %q to bucket %q\n"
        [.str key, .str bucket, .str «from»])])

/-- `uploadObject(uploader, bucket)` (lines 152-168). -/
def uploadObject (svc : Env) (bucket : String) (t : List Event) : Result :=
  let fileName := "test.txt"
  let t := t ++ [.call (.Open fileName)]
  match (svc (.Open fileName)).err with
  | some err => exitErrorf "Unable to open upload file %q, %v" [.str fileName, .err err] t
  | none =>
    let file : File := { name := fileName }
    let t := t ++ [.call (.Upload bucket fileName file)]
    match (svc (.Upload bucket fileName file)).err with
    | some err =>
      exitErrorf "Unable to upload %q to %q, %v" [.str fileName, .str bucket, .err err] t
    | none =>
      .returned (t ++ [.stdout (Sprintf "Successfully uploaded %q to %q\n"
        [.str fileName, .str bucket])])

/-- `downloadObject(downloader, bucket)` (lines 170-186). -/
def downloadObject (svc : Env) (bucket : String) (t : List Event) : Result :=
  let fileName := "download.txt"
  let t := t ++ [.call (.Create fileName)]
  match (svc (.Create fileName)).err with
  | some err => exitErrorf "Unable to create download file %q, %v" [.str fileName, .err err] t
  | none =>
    let file : File := { name := fileName }
    let item := "test.txt"
    let t := t ++ [.call (.Download file bucket item)]
    match (svc (.Download file bucket item)).err with
    | some err => exitErrorf "Unable to download item %q, %v" [.str item, .err err] t
    | none =>
      let numBytes := (svc (.Download file bucket item)).numBytes
      .returned (t ++ [.stdout (Println ["Donwloaded", file.name, FormatInt numBytes, "bytes"])])

end S3

namespace DynamoDB

/-- The lines of a list of names: each name followed by a newline. -/
def nameLines : List String → String
  | [] => ""
  | n :: ns => n ++ "\n" ++ nameLines ns

end DynamoDB

namespace S3

/-! ## Stating the failure discipline -/

/-- Whether the operands fit the format: the format is built from plain text
and the directives `%v`, `%s`, `%q` and `%%` only (so it does not end in an
unfinished `%`), and no operand is left over after its verbs. -/
def fits : List Char → List Arg → Bool
  | [], args => args.isEmpty
  | c :: cs, args =>
    if c = '%' then
      match cs with
      | [] => false
      | verb :: rest =>
        if verb = '%' then fits rest args
        else if verb = 'v' ∨ verb = 's' ∨ verb = 'q' then fits rest args.tail
        else false
    else fits cs args

/-- Whether a listed object carries the four fields `listObjects` prints. -/
def Object.complete (o : Object) : Bool :=
  o.Key.isSome && o.LastModified.isSome && o.Size.isSome && o.StorageClass.isSome

/-- The exit status of a result; `none` when the function returned, 2 for a
panic. -/
def Result.code : Result → Option Nat
  | .returned _ => none
  | .exited c _ => some c
  | .panicked _ => some 2

/-- The failure discipline, read off the events one by one: a call that fails
is followed by exactly one write to standard error, made by `exitErrorf`, and
the process exits with status 1; standard error is written at no other point;
and the function returns (status `none`) if it reaches the end of the events
without a failed call. -/
def Obeys (svc : Env) : List Event → Option Nat → Prop
  | [], code => code = none
  | .call c :: rest, code =>
    match (svc c).err with
    | some _ => (∃ msg args, rest = [Event.stderr (Sprintf (msg ++ "\n") args)]) ∧ code = some 1
    | none => Obeys svc rest code
  | .stdout _ :: rest, code => Obeys svc rest code
  | .stderr _ :: _, _ => False

/-- The failure discipline of an operation started after the events `t` and
ending in `r`: the operation only adds events; at every call of its that
returns an error, the result is that of calling `exitErrorf` right after that
call (so no later call, no later write to standard output, exit status 1); and
if none of its calls returns an error, it returns. -/
def FailStop (svc : Env) (t : List Event) (r : Result) : Prop :=
  ∃ new, r.trace = t ++ new ∧
    (∀ pre c post e, new = pre ++ Event.call c :: post → (svc c).err = some e →
      ∃ msg args, r = exitErrorf msg args (t ++ pre ++ [Event.call c])) ∧
    ((∀ c ∈ callsOf new, (svc c).err = none) → r = Result.returned (t ++ new))

end S3

namespace S3

/-- The environment in which the call `bad` returns the error `e` and every
other call succeeds. -/
def failingAt (bad : Call) (e : Error) : Env :=
  fun c => if c = bad then Answer.failed e else Answer.ok

/-- The environment in which every call succeeds. -/
def allSucceed : Env := fun _ => Answer.ok

/-- The environment in which the call `c` has the answer `a` and every other
call succeeds. -/
def answering (c : Call) (a : Answer) : Env :=
  fun c' => if c' = c then a else Answer.ok

end S3

/-! # Properties -/

set_option maxRecDepth 100000


namespace DynamoDB

open Go

/-- Text of `fmt.Println` with a single string operand. -/
theorem Println_single (n : String) : Println [n] = n ++ "\n" := by
  simp [Println, String.intercalate, String.intercalate.go]

/-- The loop, run on a script that starts with successful answers carrying a
token and then holds a final answer, asks once per answer up to the final one
and stops there. -/
theorem listTablesLoop_stops (pre : List ListTablesOutput) (last : ListTablesResponse)
    (extra : List ListTablesResponse)
    (hpre : ∀ p ∈ pre, p.LastEvaluatedTableName ≠ none) (hlast : isFinal last = true) :
    ∀ (input : ListTablesInput) (run : Run),
      ∃ out, listTablesLoop (pre.map Except.ok ++ last :: extra) input run = some (out, extra) ∧
        out.requests.length = run.requests.length + (pre.length + 1) := by
  induction pre with
  | nil =>
    intro input run
    cases last with
    | error e => exact ⟨_, rfl, by simp⟩
    | ok r =>
      have h : r.LastEvaluatedTableName = none := by simpa [isFinal] using hlast
      refine ⟨{ requests := run.requests ++ [input],
                stdout := printTableNames r.TableNames run.stdout }, ?_, ?_⟩
      · simp only [List.map_nil, List.nil_append, listTablesLoop, h, if_true]
      · simp
  | cons p ps ih =>
    intro input run
    have hp : p.LastEvaluatedTableName ≠ none := hpre p (List.mem_cons_self _ _)
    have hps : ∀ q ∈ ps, q.LastEvaluatedTableName ≠ none :=
      fun q hq => hpre q (List.mem_cons_of_mem _ hq)
    obtain ⟨out, hout, hlen⟩ := ih hps
      { ExclusiveStartTableName := p.LastEvaluatedTableName }
      { requests := run.requests ++ [input],
        stdout := printTableNames p.TableNames run.stdout }
    refine ⟨out, ?_, ?_⟩
    · simp only [List.map_cons, List.cons_append, listTablesLoop, hp, if_false]
      exact hout
    · simp only [List.length_append, List.length_cons, List.length_nil] at hlen ⊢
      omega

/-- C1. `listTables` terminates whenever the service eventually answers with
no continuation token: on every finite sequence of answers whose last one is
the first that is an error or carries no `LastEvaluatedTableName`, it returns,
having issued exactly one request per answer of that sequence, and none of the
answers that might follow (`extra`) is asked for. -/
theorem listTables_terminates (pre : List ListTablesOutput) (last : ListTablesResponse)
    (extra : List ListTablesResponse)
    (hpre : ∀ p ∈ pre, p.LastEvaluatedTableName ≠ none) (hlast : isFinal last = true) :
    ∃ out, listTables (pre.map Except.ok ++ last :: extra) = some (out, extra) ∧
      out.requests.length = (pre.map Except.ok ++ [last]).length := by
  obtain ⟨out, h, hlen⟩ := listTablesLoop_stops pre last extra hpre hlast
    { ExclusiveStartTableName := none } { requests := [], stdout := "Tables:\n" }
  exact ⟨out, h, by simpa using hlen⟩

/-- C1, at a script of two pages followed by an answer that is never asked
for. -/
theorem listTables_terminates_witness :
    ∃ out, listTables ([(⟨["a"], some "a"⟩ : ListTablesOutput)].map Except.ok ++
        Except.ok ⟨["b"], none⟩ :: [Except.ok ⟨["c"], none⟩]) =
          some (out, [Except.ok ⟨["c"], none⟩]) ∧
      out.requests.length =
        ([(⟨["a"], some "a"⟩ : ListTablesOutput)].map Except.ok ++
          [(Except.ok ⟨["b"], none⟩ : ListTablesResponse)]).length :=
  listTables_terminates [⟨["a"], some "a"⟩] (Except.ok ⟨["b"], none⟩) [Except.ok ⟨["c"], none⟩]
    (by decide) (by decide)

end DynamoDB

namespace DynamoDB

open Go

/-- Lines of a concatenation. -/
theorem nameLines_append (a b : List String) :
    nameLines (a ++ b) = nameLines a ++ nameLines b := by
  induction a with
  | nil => simp [nameLines]
  | cons n ns ih => simp [nameLines, ih, String.append_assoc]

/-- The inner loop appends the lines of the names to what was printed. -/
theorem printTableNames_eq (ns : List String) (out : String) :
    printTableNames ns out = out ++ nameLines ns := by
  induction ns generalizing out with
  | nil => simp [printTableNames, nameLines]
  | cons n ns ih => simp [printTableNames, nameLines, ih, Println_single, String.append_assoc]

/-- The loop on successful pages: requests and output in full. -/
theorem listTablesLoop_pages (pre : List ListTablesOutput) (last : ListTablesOutput)
    (extra : List ListTablesResponse)
    (hpre : ∀ p ∈ pre, p.LastEvaluatedTableName ≠ none)
    (hlast : last.LastEvaluatedTableName = none) :
    ∀ (input : ListTablesInput) (run : Run),
      listTablesLoop (pre.map Except.ok ++ Except.ok last :: extra) input run =
        some ({ requests := run.requests ++ input ::
                  pre.map (fun p => { ExclusiveStartTableName := p.LastEvaluatedTableName }),
                stdout := run.stdout ++
                  nameLines ((pre ++ [last]).flatMap (fun p => p.TableNames)) }, extra) := by
  induction pre with
  | nil =>
    intro input run
    simp [listTablesLoop, hlast, printTableNames_eq]
  | cons p ps ih =>
    intro input run
    have hp : p.LastEvaluatedTableName ≠ none := hpre p (List.mem_cons_self _ _)
    have hps : ∀ q ∈ ps, q.LastEvaluatedTableName ≠ none :=
      fun q hq => hpre q (List.mem_cons_of_mem _ hq)
    simp only [List.map_cons, List.cons_append, listTablesLoop, hp, if_false]
    refine (ih hps _ _).trans ?_
    simp [printTableNames_eq, nameLines_append, String.append_assoc]

/-- C2. `listTables` follows the single next-token field and prints every
page: on successful answers `p1..pk` of which `pk` is the first without
`LastEvaluatedTableName`, the first request carries no
`ExclusiveStartTableName`, request `i+1` carries the `LastEvaluatedTableName`
of answer `pi`, and standard output is the line `Tables:` followed by the
table names of `p1`, then `p2`, ..., then `pk`, one per line in listed order. -/
theorem listTables_follows_token (pre : List ListTablesOutput) (last : ListTablesOutput)
    (extra : List ListTablesResponse)
    (hpre : ∀ p ∈ pre, p.LastEvaluatedTableName ≠ none)
    (hlast : last.LastEvaluatedTableName = none) :
    listTables (pre.map Except.ok ++ Except.ok last :: extra) =
      some ({ requests := { ExclusiveStartTableName := none } ::
                pre.map (fun p => { ExclusiveStartTableName := p.LastEvaluatedTableName }),
              stdout := "Tables:\n" ++
                nameLines ((pre ++ [last]).flatMap (fun p => p.TableNames)) }, extra) := by
  unfold listTables
  rw [listTablesLoop_pages pre last extra hpre hlast]
  simp

/-- C2, at two pages. -/
theorem listTables_follows_token_witness :
    listTables ([(⟨["a", "b"], some "b"⟩ : ListTablesOutput)].map Except.ok ++
        Except.ok ⟨["c"], none⟩ :: []) =
      some ({ requests := { ExclusiveStartTableName := none } ::
                [(⟨["a", "b"], some "b"⟩ : ListTablesOutput)].map
                  (fun p => { ExclusiveStartTableName := p.LastEvaluatedTableName }),
              stdout := "Tables:\n" ++
                nameLines (([(⟨["a", "b"], some "b"⟩ : ListTablesOutput)] ++
                  [(⟨["c"], none⟩ : ListTablesOutput)]).flatMap (fun p => p.TableNames)) }, []) :=
  listTables_follows_token [⟨["a", "b"], some "b"⟩] ⟨["c"], none⟩ [] (by decide) rfl

end DynamoDB

namespace DynamoDB

open Go

/-- C3. Create-then-read round trip on the document store: on the empty table
Movies, `createItem` followed by `readItem` both return, the item `createItem`
marshals and puts carries `year` as the number 2015 and `title` as the string
"The Big New Movie", the very attributes of the `Key` that `readItem` asks
for, unmarshalling the marshalled map gives the `Item` back, and `readItem`
reports the item as found with Year 2015, Title "The Big New Movie", Plot
"Nothing happens at all." and Rating 0. -/
theorem create_then_read_round_trip
    (update : UpdateItemInput → Store → Option SdkError × Store) :
    (andThen (createItem (storeClient update)) (readItem (storeClient update))
        initialWorld).1 = Outcome.returned ∧
    (andThen (createItem (storeClient update)) (readItem (storeClient update))
        initialWorld).2.stdout =
      "Successfully added 'The Big New Movie' (2015) to Movies table\n" ++
      "Found item:\n" ++
      "Year:   2015\n" ++
      "Title:  The Big New Movie\n" ++
      "Plot:   Nothing happens at all.\n" ++
      "Rating: 0\n" ∧
    (createItem (storeClient update) initialWorld).2.requests =
      [Request.PutItem
        { Item := encodeItem ⟨2015, "The Big New Movie", ⟨"Nothing happens at all.", Float64.zero⟩⟩,
          TableName := "Movies" }] ∧
    lookupAttribute "year"
        (encodeItem ⟨2015, "The Big New Movie", ⟨"Nothing happens at all.", Float64.zero⟩⟩) =
      some (AttributeValue.N "2015") ∧
    lookupAttribute "title"
        (encodeItem ⟨2015, "The Big New Movie", ⟨"Nothing happens at all.", Float64.zero⟩⟩) =
      some (AttributeValue.S "The Big New Movie") ∧
    readItemInput.Key =
      [("year", AttributeValue.N "2015"), ("title", AttributeValue.S "The Big New Movie")] ∧
    UnmarshalMap
        (encodeItem ⟨2015, "The Big New Movie", ⟨"Nothing happens at all.", Float64.zero⟩⟩)
        Item.zero =
      Except.ok ⟨2015, "The Big New Movie", ⟨"Nothing happens at all.", Float64.zero⟩⟩ :=
  ⟨rfl, rfl, rfl, rfl, rfl, rfl, rfl⟩

/-- C4 (as the code runs). Write-then-delete on the table Movies: the `Key`
that `deleteItem` sends is the whole marshalled `Item`, with the attributes
`year`, `title` and `info`; the store rejects it, `deleteItem` prints the
error instead of "Deleted 'The Big New Movie' (2015)", and the following
`readItem` still finds the item. -/
theorem write_then_delete_leaves_item
    (update : UpdateItemInput → Store → Option SdkError × Store) :
    (andThen (createItem (storeClient update)) (deleteItem (storeClient update))
        initialWorld).2.requests.map
        (fun r => match r with
          | Request.DeleteItem input => attributeNames input.Key
          | _ => []) = [[], ["year", "title", "info"]] ∧
    (andThen (createItem (storeClient update))
        (andThen (deleteItem (storeClient update)) (readItem (storeClient update)))
        initialWorld).2.stdout =
      "Successfully added 'The Big New Movie' (2015) to Movies table\n" ++
      "Got error calling DeleteItem\n" ++
      "ValidationException: The provided key element does not match the schema\n" ++
      "Found item:\n" ++
      "Year:   2015\n" ++
      "Title:  The Big New Movie\n" ++
      "Plot:   Nothing happens at all.\n" ++
      "Rating: 0\n" :=
  ⟨rfl, rfl⟩

/-- C8 (as the code runs). The `UpdateItemInput` that `updateItem` builds has
`UpdateExpression` "set info.rating = :r", whose only placeholder is `:r`,
but its `ExpressionAttributeValues` are the marshalled `ItemInfo`, with the
names `plot` and `rating` and no `:r`; and its `Key` is the whole marshalled
`Item`, with the attributes `year`, `title` and `info`. -/
theorem updateItem_request {σ : Type} (svc : Client σ) (w : World σ) :
    ∃ input : UpdateItemInput,
      (updateItem svc w).2.requests = w.requests ++ [Request.UpdateItem input] ∧
      input.UpdateExpression = "set info.rating = :r" ∧
      placeholders input.UpdateExpression = [":r"] ∧
      attributeNames input.ExpressionAttributeValues = ["plot", "rating"] ∧
      lookupAttribute ":r" input.ExpressionAttributeValues = none ∧
      lookupAttribute "rating" input.ExpressionAttributeValues =
        some (AttributeValue.N "0.5") ∧
      attributeNames input.Key = ["year", "title", "info"] := by
  refine ⟨{ ExpressionAttributeValues := encodeItemInfo ⟨"", Float64.half⟩,
            TableName := "Movies",
            Key := encodeItem ⟨2015, "The Big New Movie", ItemInfo.zero⟩,
            ReturnValues := "UPDATED_NEW",
            UpdateExpression := "set info.rating = :r" }, ?_, rfl, by decide, by decide, rfl,
          rfl, by decide⟩
  simp only [updateItem, MarshalMapInfo, MarshalMap]
  cases h : (svc.UpdateItem
      { ExpressionAttributeValues := encodeItemInfo ⟨"", Float64.half⟩,
        TableName := "Movies",
        Key := encodeItem ⟨2015, "The Big New Movie", ItemInfo.zero⟩,
        ReturnValues := "UPDATED_NEW",
        UpdateExpression := "set info.rating = :r" } w.service).1 <;>
    simp [h, World.called, World.println]

end DynamoDB

namespace Kinesis

open Go

/-- The ten entries the loop of `putRecords` leaves in the slice. -/
theorem fillEntries_ten :
    fillEntries 0 (List.replicate 10 none) =
      [some ⟨[104, 111, 103, 101, 48], "key2"⟩, some ⟨[104, 111, 103, 101, 49], "key2"⟩,
       some ⟨[104, 111, 103, 101, 50], "key2"⟩, some ⟨[104, 111, 103, 101, 51], "key2"⟩,
       some ⟨[104, 111, 103, 101, 52], "key2"⟩, some ⟨[104, 111, 103, 101, 53], "key2"⟩,
       some ⟨[104, 111, 103, 101, 54], "key2"⟩, some ⟨[104, 111, 103, 101, 55], "key2"⟩,
       some ⟨[104, 111, 103, 101, 56], "key2"⟩, some ⟨[104, 111, 103, 101, 57], "key2"⟩] := by
  simp [fillEntries, List.replicate]
  decide

/-- C7. `putRecords` puts 10 records with one `PutRecords` call: for every
stream name, exactly one request is sent; it has that `StreamName` and a
`Records` list of length 10 with no nil entry, entry `i` (0 to 9) having
`Data` the bytes of "hoge" (104 111 103 101) followed by the decimal digit of
`i` (48 + i) and `PartitionKey` "key2"; the data values are pairwise
distinct. -/
theorem putRecords_sends_ten_records {Out : Type}
    (showEntries : List (Option PutRecordsRequestEntry) → String) (showOutput : Out → String)
    (PutRecords : PutRecordsInput → Except String Out) (streamName : Option String)
    (w : World) :
    ∃ input : PutRecordsInput,
      (putRecords showEntries showOutput PutRecords streamName w).2.requests =
        w.requests ++ [input] ∧
      input.StreamName = streamName ∧
      input.Records.length = 10 ∧
      (∀ e ∈ input.Records, e ≠ none) ∧
      (∀ i, i < 10 → input.Records[i]? =
        some (some { Data := [104, 111, 103, 101, 48 + i], PartitionKey := "key2" })) ∧
      (∀ i, i < 10 → input.Records[i]? =
        some (some { Data := bytes ("hoge" ++ toString i), PartitionKey := "key2" })) ∧
      (input.Records.map (Option.map PutRecordsRequestEntry.Data)).Nodup := by
  refine ⟨{ Records := fillEntries 0 (List.replicate 10 none), StreamName := streamName },
    ?_, rfl, ?_, ?_, ?_, ?_, ?_⟩
  · simp only [putRecords]
    cases PutRecords { Records := fillEntries 0 (List.replicate 10 none),
                       StreamName := streamName } <;> rfl
  · dsimp only; rw [fillEntries_ten]; rfl
  · dsimp only; rw [fillEntries_ten]; decide
  · intro i hi
    dsimp only
    rw [fillEntries_ten]
    interval_cases i <;> rfl
  · intro i hi
    dsimp only
    rw [fillEntries_ten]
    interval_cases i <;> decide
  · dsimp only; rw [fillEntries_ten]; decide

end Kinesis

namespace S3

open Go

/-- A format extended by a newline formats to the same text extended by a
newline, when the operands fit. -/
theorem formatChars_newline (f : List Char) (args : List Arg) (h : fits f args = true) :
    formatChars (f ++ ['\n']) args = formatChars f args ++ "\n" := by
  induction f, args using formatChars.induct with
  | case1 args =>
    cases args with
    | nil => decide
    | cons a more => simp [fits] at h
  | case2 args => simp [fits] at h
  | case3 args cs ih =>
    simp only [fits, if_true] at h
    simp [formatChars, ih h, String.append_assoc]
  | case4 c cs hc ih =>
    simp only [fits, hc, if_true, if_false, List.tail_nil] at h
    have h2 : fits cs [] = true := by
      by_cases hv : c = 'v' ∨ c = 's' ∨ c = 'q'
      · simpa [hv] using h
      · simp [hv] at h
    simp [formatChars, hc, ih h2, String.append_assoc]
  | case5 c cs hc a rest ih =>
    simp only [fits, hc, if_true, if_false, List.tail_cons] at h
    have h2 : fits cs rest = true := by
      by_cases hv : c = 'v' ∨ c = 's' ∨ c = 'q'
      · simpa [hv] using h
      · simp [hv] at h
    simp [formatChars, hc, ih h2, String.append_assoc]
  | case6 c cs args hc ih =>
    have h2 : fits cs args = true := by
      unfold fits at h
      simpa [hc] using h
    have e1 : formatChars (c :: cs ++ ['\n']) args =
        String.singleton c ++ formatChars (cs ++ ['\n']) args := by
      rw [List.cons_append, formatChars.eq_def]; simp [hc]
    have e2 : formatChars (c :: cs) args = String.singleton c ++ formatChars cs args := by
      rw [formatChars.eq_def]; simp [hc]
    rw [e1, e2, ih h2, String.append_assoc]

/-- The text of `Sprintf` for a format extended by a newline. -/
theorem Sprintf_newline (msg : String) (args : List Arg) (h : fits msg.toList args = true) :
    Sprintf (msg ++ "\n") args = Sprintf msg args ++ "\n" := by
  unfold Sprintf
  rw [← formatChars_newline _ _ h]
  simp

end S3

namespace S3

open Go

/-- Events written to standard output only obey the discipline and end in a
return. -/
theorem obeys_stdout (svc : Env) (outs : List Event)
    (h : ∀ ev ∈ outs, ∃ s, ev = Event.stdout s) : Obeys svc outs none := by
  induction outs with
  | nil => simp [Obeys]
  | cons ev rest ih =>
    obtain ⟨s, rfl⟩ := h ev (List.mem_cons_self _ _)
    simpa [Obeys] using ih (fun x hx => h x (List.mem_cons_of_mem _ hx))

/-- Under the discipline, a failed call is followed by the one write of
`exitErrorf` and status 1. -/
theorem obeys_failing_call (svc : Env) (new : List Event) (code : Option Nat)
    (h : Obeys svc new code) :
    ∀ pre c post e, new = pre ++ Event.call c :: post → (svc c).err = some e →
      (∃ msg args, post = [Event.stderr (Sprintf (msg ++ "\n") args)]) ∧ code = some 1 := by
  induction new with
  | nil => intro pre c post e hsplit; simp at hsplit
  | cons ev rest ih =>
    intro pre c post e hsplit herr
    cases pre with
    | nil =>
      simp only [List.nil_append, List.cons.injEq] at hsplit
      obtain ⟨rfl, rfl⟩ := hsplit
      simpa [Obeys, herr] using h
    | cons p pre' =>
      simp only [List.cons_append, List.cons.injEq] at hsplit
      obtain ⟨rfl, hrest⟩ := hsplit
      cases ev with
      | call c0 =>
        cases h0 : (svc c0).err with
        | none =>
          have h' : Obeys svc rest code := by simpa [Obeys, h0] using h
          exact ih h' pre' c post e hrest herr
        | some e0 =>
          have h' : (∃ msg args, rest = [Event.stderr (Sprintf (msg ++ "\n") args)]) ∧
              code = some 1 := by simpa [Obeys, h0] using h
          obtain ⟨⟨msg, args, hr⟩, _⟩ := h'
          rw [hr] at hrest
          cases pre' with
          | nil => simp at hrest
          | cons q qs =>
            simp only [List.cons_append, List.cons.injEq] at hrest
            have := hrest.2
            simp at this
      | stdout s =>
        have h' : Obeys svc rest code := by simpa [Obeys] using h
        exact ih h' pre' c post e hrest herr
      | stderr s => simp [Obeys] at h

/-- Under the discipline, a run without a failed call returns. -/
theorem obeys_no_failure (svc : Env) (new : List Event) (code : Option Nat)
    (h : Obeys svc new code) (hok : ∀ c ∈ callsOf new, (svc c).err = none) : code = none := by
  induction new with
  | nil => simpa [Obeys] using h
  | cons ev rest ih =>
    cases ev with
    | call c0 =>
      have h0 : (svc c0).err = none := hok c0 (by simp [callsOf])
      have h' : Obeys svc rest code := by simpa [Obeys, h0] using h
      exact ih h' (fun c hc => hok c (by simp [callsOf, hc]))
    | stdout s =>
      have h' : Obeys svc rest code := by simpa [Obeys] using h
      exact ih h' (fun c hc => hok c (by simpa [callsOf] using hc))
    | stderr s => simp [Obeys] at h

/-- The discipline read off the events gives the discipline as stated. -/
theorem failStop_of_obeys (svc : Env) (t : List Event) (r : Result) (new : List Event)
    (h1 : r.trace = t ++ new) (h2 : Obeys svc new r.code) : FailStop svc t r := by
  refine ⟨new, h1, ?_, ?_⟩
  · intro pre c post e hsplit herr
    obtain ⟨⟨msg, args, hpost⟩, hcode⟩ := obeys_failing_call svc new r.code h2 pre c post e hsplit herr
    refine ⟨msg, args, ?_⟩
    cases r with
    | returned tr => simp [Result.code] at hcode
    | exited k tr =>
      simp only [Result.code, Option.some.injEq] at hcode
      simp only [Result.trace] at h1
      simp [exitErrorf, hcode, h1, hsplit, hpost]
    | panicked tr => simp [Result.code] at hcode
  · intro hok
    have hcode := obeys_no_failure svc new r.code h2 hok
    cases r with
    | returned tr => simpa [Result.trace] using h1
    | exited k tr => simp [Result.code] at hcode
    | panicked tr => simp [Result.code] at hcode

/-- The loop of `listBuckets` only writes to standard output. -/
theorem printBuckets_stdout (bs : List Bucket) :
    ∀ t, ∃ outs, printBuckets bs t = t ++ outs ∧ ∀ ev ∈ outs, ∃ s, ev = Event.stdout s := by
  induction bs with
  | nil => intro t; exact ⟨[], by simp [printBuckets], by simp⟩
  | cons b rest ih =>
    intro t
    obtain ⟨outs, h, hall⟩ := ih (t ++ [.stdout (Sprintf "* %s created on %s\n"
      [.str (StringValue b.Name), .time (TimeValue b.CreationDate)])])
    refine ⟨Event.stdout (Sprintf "* %s created on %s\n"
      [.str (StringValue b.Name), .time (TimeValue b.CreationDate)]) :: outs, ?_, ?_⟩
    · rw [printBuckets, h]; simp
    · intro ev hev
      rcases List.mem_cons.1 hev with rfl | hmem
      · exact ⟨_, rfl⟩
      · exact hall ev hmem

/-- The loop of `listObjects`, over objects that carry their four fields,
returns after writing to standard output only. -/
theorem printObjects_stdout (items : List Object)
    (hc : ∀ item ∈ items, item.complete = true) :
    ∀ t, ∃ outs, printObjects items t = Result.returned (t ++ outs) ∧
      ∀ ev ∈ outs, ∃ s, ev = Event.stdout s := by
  induction items with
  | nil => intro t; exact ⟨[], by simp [printObjects], by simp⟩
  | cons item rest ih =>
    intro t
    have hitem := hc item (List.mem_cons_self _ _)
    have hrest : ∀ x ∈ rest, x.complete = true := fun x hx => hc x (List.mem_cons_of_mem _ hx)
    obtain ⟨key, lastModified, size, storageClass⟩ := item
    cases key with
    | none => simp [Object.complete] at hitem
    | some key =>
      cases lastModified with
      | none => simp [Object.complete] at hitem
      | some lastModified =>
        cases size with
        | none => simp [Object.complete] at hitem
        | some size =>
          cases storageClass with
          | none => simp [Object.complete] at hitem
          | some storageClass =>
            obtain ⟨outs, h, hall⟩ := ih hrest (t ++
              [.stdout (Println ["Name: ", key])] ++
              [.stdout (Println ["Last Modified: ", lastModified.text])] ++
              [.stdout (Println ["Size: ", FormatInt size])] ++
              [.stdout (Println ["Storage class: ", storageClass])] ++
              [.stdout (Println [""])])
            refine ⟨[.stdout (Println ["Name: ", key]),
              .stdout (Println ["Last Modified: ", lastModified.text]),
              .stdout (Println ["Size: ", FormatInt size]),
              .stdout (Println ["Storage class: ", storageClass]),
              .stdout (Println [""])] ++ outs, ?_, ?_⟩
            · simp only [printObjects]
              rw [h]
              simp
            · intro ev hev
              rcases List.mem_append.1 hev with hmem | hmem
              · simp only [List.mem_cons, List.mem_singleton, List.not_mem_nil,
                  or_false] at hmem
                rcases hmem with rfl | rfl | rfl | rfl | rfl <;> exact ⟨_, rfl⟩
              · exact hall ev hmem

end S3

namespace S3

open Go

/-- An exit with status 1 after events that obey the discipline. -/
theorem failStop_exit (svc : Env) (t new : List Event) (h : Obeys svc new (some 1)) :
    FailStop svc t (Result.exited 1 (t ++ new)) :=
  failStop_of_obeys svc t _ new rfl h

/-- A return after events that obey the discipline. -/
theorem failStop_return (svc : Env) (t new : List Event) (h : Obeys svc new none) :
    FailStop svc t (Result.returned (t ++ new)) :=
  failStop_of_obeys svc t _ new rfl h

/-- `createNewBucketAndObject` keeps the failure discipline. -/
theorem createNewBucketAndObject_failStop (svc : Env) (bucket key : String) (t : List Event) :
    FailStop svc t (createNewBucketAndObject svc bucket key t) := by
  unfold createNewBucketAndObject
  cases h1 : (svc (.CreateBucket bucket)).err with
  | some e1 =>
    simp only [exitErrorf, List.append_assoc, List.cons_append, List.nil_append]
    apply failStop_exit
    simp only [Obeys, h1, and_true]
    exact ⟨_, _, rfl⟩
  | none =>
    cases h2 : (svc (.WaitUntilBucketExists bucket)).err with
    | some e2 =>
      simp only [exitErrorf, List.append_assoc, List.cons_append, List.nil_append]
      apply failStop_exit
      simp only [Obeys, h1, h2, and_true]
      exact ⟨_, _, rfl⟩
    | none =>
      cases h3 : (svc (.PutObject "Hello World!" bucket key)).err with
      | some e3 =>
        simp only [exitErrorf, List.append_assoc, List.cons_append, List.nil_append]
        apply failStop_exit
        simp only [Obeys, h1, h2, h3, and_true]
        exact ⟨_, _, rfl⟩
      | none =>
        simp only [List.append_assoc, List.cons_append, List.nil_append]
        apply failStop_return
        simp only [Obeys, h1, h2, h3]

/-- `listBuckets` keeps the failure discipline. -/
theorem listBuckets_failStop (svc : Env) (t : List Event) :
    FailStop svc t (listBuckets svc t) := by
  unfold listBuckets
  cases h1 : (svc .ListBuckets).err with
  | some e1 =>
    simp only [exitErrorf, List.append_assoc, List.cons_append, List.nil_append]
    apply failStop_exit
    simp only [Obeys, h1, and_true]
    exact ⟨_, _, rfl⟩
  | none =>
    obtain ⟨outs, h, hall⟩ := printBuckets_stdout (svc .ListBuckets).Buckets
      (t ++ [.call .ListBuckets, .stdout (Println ["Buckets:"])])
    simp only [List.append_assoc, List.cons_append, List.nil_append]
    rw [h]
    simp only [List.append_assoc, List.cons_append, List.nil_append]
    apply failStop_return
    simp only [Obeys, h1]
    exact obeys_stdout svc outs hall

/-- `listObjects` keeps the failure discipline when the objects listed carry
their four fields. -/
theorem listObjects_failStop (svc : Env) (bucket : String) (t : List Event)
    (hc : ∀ item ∈ (svc (.ListObjects bucket)).Contents, item.complete = true) :
    FailStop svc t (listObjects svc bucket t) := by
  unfold listObjects
  cases h1 : (svc (.ListObjects bucket)).err with
  | some e1 =>
    simp only [exitErrorf, List.append_assoc, List.cons_append, List.nil_append]
    apply failStop_exit
    simp only [Obeys, h1, and_true]
    exact ⟨_, _, rfl⟩
  | none =>
    obtain ⟨outs, h, hall⟩ := printObjects_stdout (svc (.ListObjects bucket)).Contents hc
      (t ++ [.call (.ListObjects bucket)])
    simp only [h, List.append_assoc, List.cons_append, List.nil_append]
    apply failStop_return
    simp only [Obeys, h1]
    exact obeys_stdout svc outs hall

/-- `createBucket` keeps the failure discipline. -/
theorem createBucket_failStop (svc : Env) (bucket : String) (t : List Event) :
    FailStop svc t (createBucket svc bucket t) := by
  unfold createBucket
  cases h1 : (svc (.CreateBucket bucket)).err with
  | some e1 =>
    simp only [exitErrorf, List.append_assoc, List.cons_append, List.nil_append]
    apply failStop_exit
    simp only [Obeys, h1, and_true]
    exact ⟨_, _, rfl⟩
  | none =>
    cases h2 : (svc (.WaitUntilBucketExists bucket)).err with
    | some e2 =>
      simp only [exitErrorf, List.append_assoc, List.cons_append, List.nil_append]
      apply failStop_exit
      simp only [Obeys, h1, h2, and_true]
      exact ⟨_, _, rfl⟩
    | none =>
      simp only [List.append_assoc, List.cons_append, List.nil_append]
      apply failStop_return
      simp only [Obeys, h1, h2]

/-- `deleteBucket` keeps the failure discipline. -/
theorem deleteBucket_failStop (svc : Env) (bucket : String) (t : List Event) :
    FailStop svc t (deleteBucket svc bucket t) := by
  unfold deleteBucket
  cases h1 : (svc (.DeleteBucket bucket)).err with
  | some e1 =>
    simp only [exitErrorf, List.append_assoc, List.cons_append, List.nil_append]
    apply failStop_exit
    simp only [Obeys, h1, and_true]
    exact ⟨_, _, rfl⟩
  | none =>
    cases h2 : (svc (.WaitUntilBucketNotExists bucket)).err with
    | some e2 =>
      simp only [exitErrorf, List.append_assoc, List.cons_append, List.nil_append]
      apply failStop_exit
      simp only [Obeys, h1, h2, and_true]
      exact ⟨_, _, rfl⟩
    | none =>
      simp only [List.append_assoc, List.cons_append, List.nil_append]
      apply failStop_return
      simp only [Obeys, h1, h2]

/-- `deleteObject` keeps the failure discipline. -/
theorem deleteObject_failStop (svc : Env) (bucket key : String) (t : List Event) :
    FailStop svc t (deleteObject svc bucket key t) := by
  unfold deleteObject
  cases h1 : (svc (.DeleteObject bucket key)).err with
  | some e1 =>
    simp only [exitErrorf, List.append_assoc, List.cons_append, List.nil_append]
    apply failStop_exit
    simp only [Obeys, h1, and_true]
    exact ⟨_, _, rfl⟩
  | none =>
    cases h2 : (svc (.WaitUntilObjectNotExists bucket key)).err with
    | some e2 =>
      simp only [exitErrorf, List.append_assoc, List.cons_append, List.nil_append]
      apply failStop_exit
      simp only [Obeys, h1, h2, and_true]
      exact ⟨_, _, rfl⟩
    | none =>
      simp only [List.append_assoc, List.cons_append, List.nil_append]
      apply failStop_return
      simp only [Obeys, h1, h2]

/-- `copyObject` keeps the failure discipline. -/
theorem copyObject_failStop (svc : Env) (src bucket key : String) (t : List Event) :
    FailStop svc t (copyObject svc src bucket key t) := by
  unfold copyObject
  cases h1 : (svc (.CopyObject bucket src key)).err with
  | some e1 =>
    simp only [exitErrorf, List.append_assoc, List.cons_append, List.nil_append]
    apply failStop_exit
    simp only [Obeys, h1, and_true]
    exact ⟨_, _, rfl⟩
  | none =>
    cases h2 : (svc (.WaitUntilObjectExists bucket key)).err with
    | some e2 =>
      simp only [exitErrorf, List.append_assoc, List.cons_append, List.nil_append]
      apply failStop_exit
      simp only [Obeys, h1, h2, and_true]
      exact ⟨_, _, rfl⟩
    | none =>
      simp only [List.append_assoc, List.cons_append, List.nil_append]
      apply failStop_return
      simp only [Obeys, h1, h2]

/-- `uploadObject` keeps the failure discipline. -/
theorem uploadObject_failStop (svc : Env) (bucket : String) (t : List Event) :
    FailStop svc t (uploadObject svc bucket t) := by
  unfold uploadObject
  cases h1 : (svc (.Open "test.txt")).err with
  | some e1 =>
    simp only [exitErrorf, h1, List.append_assoc, List.cons_append, List.nil_append]
    apply failStop_exit
    simp only [Obeys, h1, and_true]
    exact ⟨_, _, rfl⟩
  | none =>
    cases h2 : (svc (.Upload bucket "test.txt" { name := "test.txt" })).err with
    | some e2 =>
      simp only [exitErrorf, h1, h2, List.append_assoc, List.cons_append, List.nil_append]
      apply failStop_exit
      simp only [Obeys, h1, h2, and_true]
      exact ⟨_, _, rfl⟩
    | none =>
      simp only [h1, h2, List.append_assoc, List.cons_append, List.nil_append]
      apply failStop_return
      simp only [Obeys, h1, h2]

/-- `downloadObject` keeps the failure discipline. -/
theorem downloadObject_failStop (svc : Env) (bucket : String) (t : List Event) :
    FailStop svc t (downloadObject svc bucket t) := by
  unfold downloadObject
  cases h1 : (svc (.Create "download.txt")).err with
  | some e1 =>
    simp only [exitErrorf, h1, List.append_assoc, List.cons_append, List.nil_append]
    apply failStop_exit
    simp only [Obeys, h1, and_true]
    exact ⟨_, _, rfl⟩
  | none =>
    cases h2 : (svc (.Download { name := "download.txt" } bucket "test.txt")).err with
    | some e2 =>
      simp only [exitErrorf, h1, h2, List.append_assoc, List.cons_append, List.nil_append]
      apply failStop_exit
      simp only [Obeys, h1, h2, and_true]
      exact ⟨_, _, rfl⟩
    | none =>
      simp only [h1, h2, List.append_assoc, List.cons_append, List.nil_append]
      apply failStop_return
      simp only [Obeys, h1, h2]

end S3

namespace S3

open Go

/-- C5 (as amended). In the object-store program a failure ends the process
with exit status 1 and never reports success.  `exitErrorf`, for every message
and argument list, makes one write to standard error and exits with status 1;
for every message built from plain text and the verbs `%v`, `%s`, `%q` (or
`%%`) whose arguments leave none over, what it writes is the formatted message
followed by a newline.  Each of the nine operations keeps the failure
discipline: at every SDK call, waiter or file open of its that returns an
error it calls `exitErrorf` right there, with no later call and nothing
further on standard output, and it returns without exiting when none of its
calls fails, `listObjects` provided every object listed carries its `Key`,
`LastModified`, `Size` and `StorageClass`. -/
theorem failure_exits_with_status_one (svc : Env) (t : List Event)
    (src bucket key msg : String) (args : List Arg) :
    (∃ text, exitErrorf msg args t = Result.exited 1 (t ++ [Event.stderr text])) ∧
    (fits msg.toList args = true →
      exitErrorf msg args t =
        Result.exited 1 (t ++ [Event.stderr (Sprintf msg args ++ "\n")])) ∧
    FailStop svc t (createNewBucketAndObject svc bucket key t) ∧
    FailStop svc t (listBuckets svc t) ∧
    ((∀ item ∈ (svc (.ListObjects bucket)).Contents, item.complete = true) →
      FailStop svc t (listObjects svc bucket t)) ∧
    FailStop svc t (createBucket svc bucket t) ∧
    FailStop svc t (deleteBucket svc bucket t) ∧
    FailStop svc t (deleteObject svc bucket key t) ∧
    FailStop svc t (copyObject svc src bucket key t) ∧
    FailStop svc t (uploadObject svc bucket t) ∧
    FailStop svc t (downloadObject svc bucket t) :=
  ⟨⟨_, rfl⟩,
    fun h => by rw [exitErrorf, Sprintf_newline msg args h],
    createNewBucketAndObject_failStop svc bucket key t, listBuckets_failStop svc t,
    listObjects_failStop svc bucket t, createBucket_failStop svc bucket t,
    deleteBucket_failStop svc bucket t, deleteObject_failStop svc bucket key t,
    copyObject_failStop svc src bucket key t, uploadObject_failStop svc bucket t,
    downloadObject_failStop svc bucket t⟩

/-- C5 (as amended), at the message of `listBuckets` with its one argument,
which fits, and at `listObjects` answered with one object that carries its
four fields. -/
theorem failure_exits_with_status_one_witness :
    (fits "Unable to list buckets, %v".toList [Arg.err ⟨"*errors.errorString", "boom"⟩] = true ∧
      exitErrorf "Unable to list buckets, %v" [Arg.err ⟨"*errors.errorString", "boom"⟩] [] =
        Result.exited 1 [Event.stderr
          (Sprintf "Unable to list buckets, %v" [Arg.err ⟨"*errors.errorString", "boom"⟩] ++
            "\n")]) ∧
    ((∀ item ∈ (answering (.ListObjects "b")
          (.objects [⟨some "k", some ⟨"2020-01-01 00:00:00 +0000 UTC"⟩, some 12,
            some "STANDARD"⟩]) (.ListObjects "b")).Contents, item.complete = true) ∧
      FailStop
        (answering (.ListObjects "b")
          (.objects [⟨some "k", some ⟨"2020-01-01 00:00:00 +0000 UTC"⟩, some 12,
            some "STANDARD"⟩])) []
        (listObjects
          (answering (.ListObjects "b")
            (.objects [⟨some "k", some ⟨"2020-01-01 00:00:00 +0000 UTC"⟩, some 12,
              some "STANDARD"⟩])) "b" [])) :=
  ⟨⟨by decide,
    (failure_exits_with_status_one allSucceed [] "" "" "" "Unable to list buckets, %v"
      [Arg.err ⟨"*errors.errorString", "boom"⟩]).2.1 (by decide)⟩,
   ⟨by decide,
    (failure_exits_with_status_one
      (answering (.ListObjects "b")
        (.objects [⟨some "k", some ⟨"2020-01-01 00:00:00 +0000 UTC"⟩, some 12,
          some "STANDARD"⟩])) [] "" "b" "" "" []).2.2.2.2.1 (by decide)⟩⟩

/-- C5 as stated fails at two inputs.  Where arguments are left over, as in
the waiter branch of `copyObject` (four arguments for three verbs), what
`exitErrorf` writes is not the formatted message followed by a newline.  And
where `ListObjects` succeeds with an object that carries no `StorageClass`,
no call fails, yet `listObjects` does not return: it prints three lines and
panics on the nil pointer. -/
theorem exit_claim_fails_on_leftover_argument_and_nil_field :
    copyObject (failingAt (.WaitUntilObjectExists "dst" "k") ⟨"*errors.errorString", "boom"⟩)
        "src" "dst" "k" [] =
      Result.exited 1
        [Event.call (.CopyObject "dst" "src" "k"),
         Event.call (.WaitUntilObjectExists "dst" "k"),
         Event.stderr ("Error occurred while waiting for item \"dst\" to be copied to " ++
           "bucket \"k\", src\n%!(EXTRA *errors.errorString=boom)")] ∧
    exitErrorf "Error occurred while waiting for item %q to be copied to bucket %q, %v"
        [.str "dst", .str "k", .str "src", .err ⟨"*errors.errorString", "boom"⟩] [] ≠
      Result.exited 1
        [Event.stderr (Sprintf
          "Error occurred while waiting for item %q to be copied to bucket %q, %v"
          [.str "dst", .str "k", .str "src", .err ⟨"*errors.errorString", "boom"⟩] ++ "\n")] ∧
    listObjects
        (answering (.ListObjects "b")
          (.objects [⟨some "k", some ⟨"2020-01-01 00:00:00 +0000 UTC"⟩, some 12, none⟩]))
        "b" [] =
      Result.panicked
        [Event.call (.ListObjects "b"),
         Event.stdout "Name:  k\n",
         Event.stdout "Last Modified:  2020-01-01 00:00:00 +0000 UTC\n",
         Event.stdout "Size:  12\n"] := by
  refine ⟨?_, ?_, ?_⟩ <;> decide

/-- C6 (as the code runs). When the waiter of `createBucket` or of
`deleteBucket` returns an error, the message written to standard error is
formatted from the bucket name alone: the error is not among the arguments and
its text is not printed. -/
theorem wait_failure_message_omits_error (bucket : String) (e : Error) :
    createBucket (failingAt (.WaitUntilBucketExists bucket) e) bucket [] =
      Result.exited 1
        [Event.call (.CreateBucket bucket),
         Event.stdout (Sprintf "Waiting for bucket %q to be created...\n" [.str bucket]),
         Event.call (.WaitUntilBucketExists bucket),
         Event.stderr ("Error occurred while waiting for bucket to be created " ++
           (bucket ++ "\n"))] ∧
    deleteBucket (failingAt (.WaitUntilBucketNotExists bucket) e) bucket [] =
      Result.exited 1
        [Event.call (.DeleteBucket bucket),
         Event.stdout (Sprintf "Waiting for bucket %q to be deleted...\n" [.str bucket]),
         Event.call (.WaitUntilBucketNotExists bucket),
         Event.stderr ("Error occurred while waiting for bucket to be deleted, " ++
           (bucket ++ "\n"))] ∧
    stderrText (createBucket
        (failingAt (.WaitUntilBucketExists "b") ⟨"*errors.errorString", "boom"⟩) "b" []).trace =
      "Error occurred while waiting for bucket to be created b\n" ∧
    stderrText (deleteBucket
        (failingAt (.WaitUntilBucketNotExists "b") ⟨"*errors.errorString", "boom"⟩) "b" []).trace =
      "Error occurred while waiting for bucket to be deleted, b\n" := by
  refine ⟨?_, ?_, by decide, by decide⟩
  · simp [createBucket, failingAt, Answer.err, exitErrorf]
    rfl
  · simp [deleteBucket, failingAt, Answer.err, exitErrorf]
    rfl

/-- C9 (as the code runs). `copyObject` sends the request that copies from
`CopySource = from` into `Bucket = bucket` under `Key = key`, but both of its
messages name the two the other way round: the success line shows `bucket`
after "from bucket" and `from` after "to bucket", and so does the failure
message of the copy. -/
theorem copyObject_messages_swap_source_and_destination (src bucket key : String) (e : Error) :
    copyObject allSucceed src bucket key [] =
      Result.returned
        [Event.call (.CopyObject bucket src key),
         Event.call (.WaitUntilObjectExists bucket key),
         Event.stdout ("Item " ++ (Quote key ++ (" successfully copied from bucket " ++
           (Quote bucket ++ (" to bucket " ++ (Quote src ++ "\n"))))))] ∧
    copyObject (failingAt (.CopyObject bucket src key) e) src bucket key [] =
      Result.exited 1
        [Event.call (.CopyObject bucket src key),
         Event.stderr ("Unable to copy item from bucket " ++ (Quote bucket ++ (" to bucket " ++
           (Quote src ++ (", " ++ (e.text ++ "\n"))))))] ∧
    stdoutText (copyObject allSucceed "src" "dst" "k" []).trace =
      "Item \"k\" successfully copied from bucket \"dst\" to bucket \"src\"\n" := by
  refine ⟨?_, ?_, by decide⟩
  · simp [copyObject, allSucceed, Answer.err]
    rfl
  · simp [copyObject, failingAt, Answer.err, exitErrorf]
    rfl

end S3
